import Mathlib

/-!
Verification of the accuracy-posterior estimator of
`src/python/model_evaluation.ipynb`.

The notebook defines a generative model (`model`) — a Uniform(0,1) prior on
the correctness probability `p` followed by one conditioned Bernoulli(`p`)
sample site per observation — and delegates inference to a library HMC/MCMC
sampler, resampling (`get_samples`) and summary (`summary`) stage.  The
`model` function is embedded below directly from the source; the library
stages are not part of the repository source, so they are modelled from the
specification, as marked in their doc comments.
-/

namespace ModelEval

/-! ### The generative model (embedded from the source `model` function) -/

/-- Distribution attached to a `pyro.sample` site of the model:
either the `Uniform(0.0, 1.0)` prior, or `Bernoulli(underlying_p)` with the
drawn parameter value. -/
inductive SiteDist where
  | uniform01 : SiteDist
  | bernoulli (p : ℚ) : SiteDist
  deriving DecidableEq

/-- One `pyro.sample` site: its name, its distribution, and the value it is
conditioned on (`obs = ...`), `none` for a latent draw. -/
structure Site where
  name : String
  dist : SiteDist
  obs : Option Bool
  deriving DecidableEq

/-- The latent site of the model: `pyro.sample("p", dist.Uniform(0.0, 1.0))`. -/
def pSite : Site := ⟨"p", SiteDist.uniform01, none⟩

/-- Embedding of the notebook function `model(y)`: given the value `p` drawn
at the single latent site, the trace of sample sites it creates, in execution
order — first the latent `"p"` site, then for each `i < len(y)` a site
`"obs_i"` with distribution `Bernoulli(underlying_p)` conditioned on `y[i]`. -/
def model (p : ℚ) (y : List Bool) : List Site :=
  pSite ::
    (List.range y.length).map
      (fun i => ⟨"obs_" ++ toString i, SiteDist.bernoulli p, some (y.getD i false)⟩)

/-! ### Bernoulli batch log-likelihood (real-valued semantics)

The per-site Bernoulli log-probability is the library primitive; it is
modelled here from the spec over the reals. -/

/-- The clamping margin used to keep probabilities away from the boundary
(single-precision machine epsilon, `2⁻²³`). -/
noncomputable def probEps : ℝ := 1 / 2 ^ 23

/-- Modelled from the spec: missing from src/ is the library primitive that
guards the Bernoulli log-probability; the spec requires "clamping probability
values away from the exact boundaries 0 and 1", so values at or beyond an
exact boundary are moved inward by `probEps` and interior values are kept. -/
noncomputable def clampProb (p : ℝ) : ℝ :=
  if p ≤ 0 then probEps else if 1 ≤ p then 1 - probEps else p

/-- The observation `y_i` read as the real number `1` or `0`. -/
noncomputable def obsVal (b : Bool) : ℝ := if b then 1 else 0

/-- The observation `y_i` read as the natural exponent `1` or `0`. -/
def obsCount (b : Bool) : ℕ := if b then 1 else 0

/-- Modelled from the spec: missing from src/ is the library Bernoulli
probability mass `p^y · (1-p)^(1-y)`, evaluated at the clamped parameter. -/
noncomputable def bernPmf (p : ℝ) (b : Bool) : ℝ :=
  clampProb p ^ obsCount b * (1 - clampProb p) ^ (1 - obsCount b)

/-- Log-probability of one conditioned Bernoulli site. -/
noncomputable def bernLogPmf (p : ℝ) (b : Bool) : ℝ := Real.log (bernPmf p b)

/-- Batch log-likelihood of the model: the sum of the per-site Bernoulli
log-probabilities over the observation vector, as accumulated by the
model trace. -/
noncomputable def batchLogLik (p : ℝ) (y : List Bool) : ℝ :=
  (y.map (bernLogPmf p)).sum

/-! ### Pseudo-random stream and the modelled Markov-chain sampler -/

/-- Deterministic pseudo-random stream: one 32-bit linear-congruential step.
The library draws are modelled as successive states of this stream. -/
def rngNext (s : ℕ) : ℕ := (1664525 * s + 1013904223) % 4294967296

/-- An integer draw in `[0, n)` read off the current stream state. -/
def rngVal (s : ℕ) (n : ℕ) : ℕ := s % n

/-- Clamp a rational to the unit interval. -/
def clamp01 (x : ℚ) : ℚ := max 0 (min 1 x)

/-- Initial chain state for the parameter `p`: the empirical correctness
rate of the observations (1/2 when there are none). -/
def initP (y : List Bool) : ℚ :=
  if y.length = 0 then 1 / 2 else (y.count true : ℚ) / (y.length : ℚ)

/-- Modelled from the spec: missing from src/ is the library HMC transition
kernel; the spec fixes only that it is a Markov-chain update on the single
continuous parameter `p` whose proposal magnitude is controlled by
`step_size`, so one step moves `p` by `step_size` times a stream-driven
offset in `[-1, 1]`, kept inside `[0, 1]`. -/
def chainStep (step_size : ℚ) (p : ℚ) (s : ℕ) : ℚ :=
  clamp01 (p + step_size * (((rngVal s 2001 : ℚ) - 1000) / 1000))

/-- Run the chain for `k` steps from state `p`, consuming one stream state
per step; returns the visited states in order and the final stream state. -/
def runChain (step_size : ℚ) : ℕ → ℚ → ℕ → List ℚ × ℕ
  | 0, _, s => ([], s)
  | k + 1, p, s =>
    let s2 := rngNext s
    let p2 := chainStep step_size p s2
    let rest := runChain step_size k p2 s2
    (p2 :: rest.1, rest.2)

/-- Modelled from the spec: missing from src/ is the library `mcmc.run`
loop; it runs `warmup_steps + num_samples` kernel iterations from the
initial state, discards the warm-up states and retains the rest. -/
def mcmcSampler (step_size : ℚ) (warmup_steps num_samples : ℕ)
    (y : List Bool) (s : ℕ) : List ℚ × ℕ :=
  let res := runChain step_size (warmup_steps + num_samples) (initP y) s
  (res.1.drop warmup_steps, res.2)

/-! ### Resampling the retained chain (`mcmc.get_samples(num_samples=...)`) -/

/-- Stream-driven index sequence for resampling: `k` indices into a retained
chain of length `n`, drawn with replacement. -/
def resampleIndices (n : ℕ) : ℕ → ℕ → List ℕ × ℕ
  | 0, s => ([], s)
  | k + 1, s =>
    let s2 := rngNext s
    let rest := resampleIndices n k s2
    (rngVal s2 n :: rest.1, rest.2)

/-- Modelled from the spec: missing from src/ is the library
`mcmc.get_samples(num_samples=S)`; it reports `S` draws taken from the
retained chain states at stream-driven indices (a with-replacement policy,
the choice the spec leaves to the library default). -/
def getSamples (chain : List ℚ) (k : ℕ) (s : ℕ) : List ℚ × ℕ :=
  let res := resampleIndices chain.length k s
  (res.1.map (fun i => chain.getD i 0), res.2)

/-! ### Summary statistics (`mcmc.summary(prob=...)`) -/

/-- Ascending sort of the sample sequence. -/
def sortQ (s : List ℚ) : List ℚ := s.insertionSort (· ≤ ·)

/-- Index of the empirical `q`-quantile in a sorted sequence of length `n`. -/
def quantileIndex (q : ℚ) (n : ℕ) : ℕ := min (Int.toNat ⌊q * (n : ℚ)⌋) (n - 1)

/-- The empirical `q`-quantile of a sample sequence: the order statistic of
the sorted sequence at the quantile index. -/
def empiricalQuantile (s : List ℚ) (q : ℚ) : ℚ :=
  (sortQ s).getD (quantileIndex q s.length) 0

/-- Arithmetic mean, as a left fold over the sample sequence. -/
def listMean (s : List ℚ) : ℚ := s.foldl (· + ·) 0 / (s.length : ℚ)

/-- The posterior summary reported for `p`: mean and the two credible-interval
bounds. -/
structure SummaryStats where
  mean : ℚ
  lower : ℚ
  upper : ℚ
  deriving DecidableEq

/-- Modelled from the spec: missing from src/ is the library
`mcmc.summary(prob=C)`; it reports the mean of the sample sequence and, as
credible-interval bounds, the order statistics of the sorted sequence at the
`(1−C)/2` and `1−(1−C)/2` quantile indices. -/
def summarize (s : List ℚ) (conf : ℚ) : SummaryStats :=
  let srt := sortQ s
  { mean := listMean s
    lower := srt.getD (quantileIndex ((1 - conf) / 2) s.length) 0
    upper := srt.getD (quantileIndex (1 - (1 - conf) / 2) s.length) 0 }

/-! ### The estimator pipeline with eager validation -/

/-- The invalid-input errors of the estimator. -/
inductive EstError where
  | noObservations : EstError
  | badStepSize : EstError
  | badWarmup : EstError
  | badNumSamples : EstError
  | badResampleCount : EstError
  deriving DecidableEq

/-- The specific reason reported with each invalid-input error. -/
def errMessage : EstError → String
  | EstError.noObservations => "undefined likelihood with no observations"
  | EstError.badStepSize => "step size must be positive"
  | EstError.badWarmup => "warm-up count must be positive"
  | EstError.badNumSamples => "sample count must be positive"
  | EstError.badResampleCount => "resample count must be positive"

/-- The numeric configuration of an inference run, with the source names of
the notebook call sites (`HMC(step_size=...)`, `MCMC(num_samples=...,
warmup_steps=...)`, `get_samples(num_samples=...)` as `resample_count`,
`summary(prob=...)`). Counts are integers so that non-positive values can be
stated. -/
structure Config where
  step_size : ℚ
  warmup_steps : ℤ
  num_samples : ℤ
  resample_count : ℤ
  prob : ℚ
  deriving DecidableEq

/-- The configuration of the reference run of the notebook:
`step_size=0.1`, `warmup_steps=100`, `num_samples=100`,
`get_samples(num_samples=5000)`, `summary(prob=0.95)`. -/
def refConfig : Config := ⟨1 / 10, 100, 100, 5000, 95 / 100⟩

/-- Modelled from the spec: missing from src/ is the eager invalid-input
check; each failure condition is detected before any sampling and mapped to
its specific error. -/
def validate (cfg : Config) (y : List Bool) : Option EstError :=
  if y.length = 0 then some EstError.noObservations
  else if cfg.step_size ≤ 0 then some EstError.badStepSize
  else if cfg.warmup_steps ≤ 0 then some EstError.badWarmup
  else if cfg.num_samples ≤ 0 then some EstError.badNumSamples
  else if cfg.resample_count ≤ 0 then some EstError.badResampleCount
  else none

/-- What a completed inference run returns: the posterior sample sequence
and its summary statistics. -/
structure EstOutput where
  samples : List ℚ
  stats : SummaryStats
  deriving DecidableEq

/-- Modelled from the spec: the estimator pipeline — validate eagerly, then
run the chain, resample, and summarize. It is parametric in the sampling
stage so that "the sampler is never invoked" on invalid input is the
statement that the result does not depend on the sampler. -/
def runWith (sampler : Config → List Bool → ℕ → List ℚ × ℕ)
    (cfg : Config) (y : List Bool) (seed : ℕ) : Except EstError EstOutput :=
  match validate cfg y with
  | some e => Except.error e
  | none =>
    let cr := sampler cfg y seed
    let gs := getSamples cr.1 cfg.resample_count.toNat cr.2
    Except.ok ⟨gs.1, summarize gs.1 cfg.prob⟩

/-- The chain stage of the pipeline, reading its parameters from the
configuration. -/
def hmcSampler (cfg : Config) (y : List Bool) (s : ℕ) : List ℚ × ℕ :=
  mcmcSampler cfg.step_size cfg.warmup_steps.toNat cfg.num_samples.toNat y s

/-- The complete estimator. -/
def runEstimator : Config → List Bool → ℕ → Except EstError EstOutput :=
  runWith hmcSampler

/-! ### Process-global state: rng stream, parameter store, caller data -/

/-- The caller-visible process state: the global random stream, the global
parameter store of the sampler, the observation vector, and other caller data. -/
structure GlobalState where
  rng : ℕ
  param_store : List (String × ℚ)
  data : List Bool
  extra : List ℚ
  deriving DecidableEq

/-- Modelled from the spec: one notebook inference cell as a state
transformer — `pyro.clear_param_store()`, then `mcmc.run` on the stored
observation vector, `get_samples`, and `summary`. The incoming parameter
store is discarded (cleared) before sampling; only the random stream and the
parameter store are written back. -/
def mcmcRunState (cfg : Config) (st : GlobalState) : EstOutput × GlobalState :=
  let cr := hmcSampler cfg st.data st.rng
  let gs := getSamples cr.1 cfg.resample_count.toNat cr.2
  (⟨gs.1, summarize gs.1 cfg.prob⟩,
   { st with rng := gs.2, param_store := [("p", gs.1.getD 0 0)] })

/-- Modelled from the spec: an independent run — `pyro.set_rng_seed(seed)`,
`pyro.clear_param_store()`, then the inference cell on observations `y`. -/
def independentRun (seed : ℕ) (cfg : Config) (y : List Bool)
    (st : GlobalState) : EstOutput × GlobalState :=
  mcmcRunState cfg { st with rng := seed, param_store := [], data := y }

/-! ### The top-level cell order of the notebook -/

/-- The effectful top-level steps of the notebook, in cell order. -/
inductive NotebookStep where
  | importLibs : NotebookStep
  | set_rng_seed (seed : ℕ) : NotebookStep
  | loadData : NotebookStep
  | splitData : NotebookStep
  | trainTree : NotebookStep
  | scoreTree : NotebookStep
  | subsampleTest : NotebookStep
  | buildObservations : NotebookStep
  | defineModel : NotebookStep
  | clearStoreAndRunMcmc : NotebookStep
  | getSamplesAndSummary : NotebookStep
  deriving DecidableEq

/-- Whether a step sets the global random seed. -/
def isSeedStep : NotebookStep → Bool
  | NotebookStep.set_rng_seed _ => true
  | _ => false

/-- The cells of the notebook, embedded in execution order: the seed is set
in the imports cell block (cell 3), before the data is fetched (cell 5) and
long before the inference cells (cells 22–23). -/
def notebookScript : List NotebookStep :=
  [NotebookStep.importLibs, NotebookStep.set_rng_seed 102563,
   NotebookStep.loadData, NotebookStep.splitData, NotebookStep.trainTree,
   NotebookStep.scoreTree, NotebookStep.subsampleTest,
   NotebookStep.buildObservations, NotebookStep.defineModel,
   NotebookStep.clearStoreAndRunMcmc, NotebookStep.getSamplesAndSummary]

/-- A small configuration used to exhibit concrete runs of the modelled
sampler. -/
def smallConfig : Config := ⟨1 / 10, 1, 1, 1, 1 / 2⟩

/-- The first inference run of a process seeded with the seed of the notebook. -/
def firstRun (cfg : Config) (y : List Bool) : EstOutput × GlobalState :=
  mcmcRunState cfg ⟨102563, [], y, []⟩

/-- A second inference run issued later in the same process: it starts from
the state the first run left behind, not from a reset stream. -/
def secondRun (cfg : Config) (y : List Bool) : EstOutput × GlobalState :=
  mcmcRunState cfg (firstRun cfg y).2

/-! ### Helper lemmas -/

theorem clampProb_eq_self (p : ℝ) (h0 : 0 < p) (h1 : p < 1) :
    clampProb p = p := by
  unfold clampProb
  rw [if_neg (by linarith), if_neg (by linarith)]

theorem bernLogPmf_eq (p : ℝ) (b : Bool) (h0 : 0 < p) (h1 : p < 1) :
    bernLogPmf p b =
      obsVal b * Real.log p + (1 - obsVal b) * Real.log (1 - p) := by
  cases b <;>
    simp [bernLogPmf, bernPmf, obsCount, obsVal, clampProb_eq_self p h0 h1]

theorem sum_map_eq_sum_range (f : Bool → ℝ) (y : List Bool) :
    (y.map f).sum = ∑ i ∈ Finset.range y.length, f (y.getD i false) := by
  induction y with
  | nil => simp
  | cons a l ih =>
    rw [List.map_cons, List.sum_cons, ih, List.length_cons,
      Finset.sum_range_succ']
    simp [List.getD_cons_succ, List.getD_cons_zero, add_comm]

theorem foldl_add_eq_sum (l : List ℚ) : ∀ a : ℚ, l.foldl (· + ·) a = a + l.sum := by
  induction l with
  | nil => intro a; simp
  | cons b t ih => intro a; simp [List.foldl_cons, ih, add_assoc]

theorem listMean_eq_sum_div (s : List ℚ) :
    listMean s = s.sum / (s.length : ℚ) := by
  rw [listMean, foldl_add_eq_sum, zero_add]

theorem sortQ_length (s : List ℚ) : (sortQ s).length = s.length :=
  List.length_insertionSort _ s

theorem sortQ_sorted (s : List ℚ) : (sortQ s).Sorted (· ≤ ·) :=
  List.sorted_insertionSort _ s

theorem sortQ_getD_mem (s : List ℚ) (i : ℕ) (hi : i < s.length) :
    (sortQ s).getD i 0 ∈ s := by
  have hlen : i < (sortQ s).length := by rw [sortQ_length]; exact hi
  rw [List.getD_eq_getElem _ _ hlen]
  exact (List.mem_insertionSort _).mp (List.getElem_mem hlen)

theorem sortQ_getD_mono (s : List ℚ) (i j : ℕ) (hij : i ≤ j)
    (hj : j < s.length) : (sortQ s).getD i 0 ≤ (sortQ s).getD j 0 := by
  have hjl : j < (sortQ s).length := by rw [sortQ_length]; exact hj
  have hil : i < (sortQ s).length := lt_of_le_of_lt hij hjl
  rw [List.getD_eq_getElem _ _ hil, List.getD_eq_getElem _ _ hjl]
  exact (sortQ_sorted s).rel_get_of_le (a := ⟨i, hil⟩) (b := ⟨j, hjl⟩) hij

theorem quantileIndex_lt (q : ℚ) (n : ℕ) (hn : 0 < n) :
    quantileIndex q n < n := by
  unfold quantileIndex
  exact lt_of_le_of_lt (min_le_right _ _) (by omega)

theorem quantileIndex_mono (q1 q2 : ℚ) (n : ℕ) (h : q1 ≤ q2) :
    quantileIndex q1 n ≤ quantileIndex q2 n := by
  unfold quantileIndex
  refine min_le_min ?_ le_rfl
  exact Int.toNat_le_toNat (Int.floor_le_floor
    (mul_le_mul_of_nonneg_right h (by positivity)))

theorem sum_le_length (s : List ℚ) (h : ∀ x ∈ s, x ≤ 1) :
    s.sum ≤ (s.length : ℚ) := by
  have := List.sum_le_card_nsmul s 1 h
  simpa using this

theorem resampleIndices_fst_length (n : ℕ) :
    ∀ k s, (resampleIndices n k s).1.length = k := by
  intro k
  induction k with
  | zero => intro s; rfl
  | succ m ih => intro s; simp [resampleIndices, ih]

theorem resampleIndices_lt (n : ℕ) (hn : 0 < n) :
    ∀ k s, ∀ i ∈ (resampleIndices n k s).1, i < n := by
  intro k
  induction k with
  | zero => intro s i hi; simp [resampleIndices] at hi
  | succ m ih =>
    intro s i hi
    simp only [resampleIndices, List.mem_cons] at hi
    rcases hi with h | h
    · rw [h]; exact Nat.mod_lt _ hn
    · exact ih _ i h

theorem nodup_length_le (l : List ℕ) (n : ℕ) (h : ∀ i ∈ l, i < n)
    (hd : l.Nodup) : l.length ≤ n := by
  have hcard : l.toFinset.card = l.length := List.toFinset_card_of_nodup hd
  have hsub : l.toFinset ⊆ Finset.range n := by
    intro x hx
    rw [List.mem_toFinset] at hx
    rw [Finset.mem_range]
    exact h x hx
  have := Finset.card_le_card hsub
  rw [hcard, Finset.card_range] at this
  exact this

/-! ### Claim theorems -/

/-- C1: the generative model draws `p` once from a Uniform(0,1) prior — the
`"p"` site is the first site and the only latent one — and for every
observation vector `y` of length `N ≥ 1` and each `i < N` it conditions an
independent Bernoulli(`p`) trial (site `"obs_i"`) on the observed value
`y[i]`; every conditioned site carries the same drawn `p`. -/
theorem model_single_p_conditioned_bernoullis (p : ℚ) (y : List Bool)
    (hy : 1 ≤ y.length) :
    (model p y).length = y.length + 1 ∧
    (model p y).head? = some pSite ∧
    (∀ s ∈ model p y, s.obs = none → s = pSite) ∧
    (∀ s ∈ model p y, s ≠ pSite → s.dist = SiteDist.bernoulli p) ∧
    (∀ i, (hi : i < y.length) →
      (model p y)[i + 1]? =
        some ⟨"obs_" ++ toString i, SiteDist.bernoulli p, some y[i]⟩) := by
  refine ⟨by simp [model], rfl, ?_, ?_, ?_⟩
  · intro s hs hobs
    simp only [model, List.mem_cons, List.mem_map, List.mem_range] at hs
    rcases hs with h | ⟨i, _, h⟩
    · exact h
    · rw [← h] at hobs; simp at hobs
  · intro s hs hne
    simp only [model, List.mem_cons, List.mem_map, List.mem_range] at hs
    rcases hs with h | ⟨i, _, h⟩
    · exact absurd h hne
    · rw [← h]
  · intro i hi
    simp [model, List.getElem?_map, List.getElem?_range, hi,
      List.getD_eq_getElem y false hi]

/-- C1 witness: the trace properties at `p = 1/2`, `y = [true, false]`. -/
theorem model_single_p_conditioned_bernoullis_witness :
    1 ≤ ([true, false] : List Bool).length ∧
    ((model (1 / 2) [true, false]).length = ([true, false] : List Bool).length + 1 ∧
     (model (1 / 2) [true, false]).head? = some pSite ∧
     (∀ s ∈ model (1 / 2) [true, false], s.obs = none → s = pSite) ∧
     (∀ s ∈ model (1 / 2) [true, false], s ≠ pSite →
        s.dist = SiteDist.bernoulli (1 / 2)) ∧
     (∀ i, (hi : i < ([true, false] : List Bool).length) →
        (model (1 / 2) [true, false])[i + 1]? =
          some ⟨"obs_" ++ toString i, SiteDist.bernoulli (1 / 2),
            some (([true, false] : List Bool)[i])⟩)) :=
  ⟨by decide, model_single_p_conditioned_bernoullis (1 / 2) [true, false] (by decide)⟩

/-- C9: for every observation vector `y` and every `p ∈ (0,1)` the batch
log-likelihood is the sum over `i` of
`y_i · log p + (1 − y_i) · log (1 − p)`, and the probability clamp keeps
every value strictly away from the boundaries 0 and 1, so `log 0` is never
taken. -/
theorem batchLogLik_formula (p : ℝ) (y : List Bool) (h0 : 0 < p)
    (h1 : p < 1) :
    batchLogLik p y =
      (∑ i ∈ Finset.range y.length,
        (obsVal (y.getD i false) * Real.log p +
          (1 - obsVal (y.getD i false)) * Real.log (1 - p))) ∧
    ∀ q : ℝ, 0 < clampProb q ∧ clampProb q < 1 := by
  constructor
  · rw [batchLogLik, sum_map_eq_sum_range]
    exact Finset.sum_congr rfl fun i _ => bernLogPmf_eq p _ h0 h1
  · intro q
    unfold clampProb
    split_ifs with hq hq2
    · constructor <;> norm_num [probEps]
    · constructor <;> norm_num [probEps]
    · push_neg at hq hq2
      exact ⟨hq, hq2⟩

/-- C9 witness: the log-likelihood identity and the clamp guard at
`p = 1/2`, `y = [true, false]`. -/
theorem batchLogLik_formula_witness :
    (0 : ℝ) < 1 / 2 ∧ (1 / 2 : ℝ) < 1 ∧
    (batchLogLik (1 / 2) [true, false] =
      (∑ i ∈ Finset.range ([true, false] : List Bool).length,
        (obsVal (([true, false] : List Bool).getD i false) * Real.log (1 / 2) +
          (1 - obsVal (([true, false] : List Bool).getD i false)) *
            Real.log (1 - 1 / 2))) ∧
     ∀ q : ℝ, 0 < clampProb q ∧ clampProb q < 1) :=
  ⟨by norm_num, by norm_num,
    batchLogLik_formula (1 / 2) [true, false] (by norm_num) (by norm_num)⟩

/-- C3: for every posterior sample sequence and confidence `0 < C < 1`, the
reported mean is the arithmetic mean of the sequence, and the reported
credible-interval bounds are the empirical `(1−C)/2` and `1−(1−C)/2`
quantiles of the sequence. -/
theorem summarize_mean_and_quantiles (s : List ℚ) (conf : ℚ)
    (h0 : 0 < conf) (h1 : conf < 1) :
    (summarize s conf).mean = s.sum / (s.length : ℚ) ∧
    (summarize s conf).lower = empiricalQuantile s ((1 - conf) / 2) ∧
    (summarize s conf).upper = empiricalQuantile s (1 - (1 - conf) / 2) :=
  ⟨listMean_eq_sum_div s, rfl, rfl⟩

/-- C3 witness: the summary of `[1/2, 1/4]` at confidence `0.95`. -/
theorem summarize_mean_and_quantiles_witness :
    (0 : ℚ) < 95 / 100 ∧ (95 / 100 : ℚ) < 1 ∧
    ((summarize [1 / 2, 1 / 4] (95 / 100)).mean =
        ([1 / 2, 1 / 4] : List ℚ).sum / (([1 / 2, 1 / 4] : List ℚ).length : ℚ) ∧
     (summarize [1 / 2, 1 / 4] (95 / 100)).lower =
        empiricalQuantile [1 / 2, 1 / 4] ((1 - 95 / 100) / 2) ∧
     (summarize [1 / 2, 1 / 4] (95 / 100)).upper =
        empiricalQuantile [1 / 2, 1 / 4] (1 - (1 - 95 / 100) / 2)) :=
  ⟨by norm_num, by norm_num,
    summarize_mean_and_quantiles [1 / 2, 1 / 4] (95 / 100) (by norm_num) (by norm_num)⟩

/-- C6 counterexample: a valid posterior sample sequence — the four values
`[0, 1, 1, 1]`, all in [0,1], at the in-range confidence level 1/2 — whose
reported lower credible-interval bound (1) is strictly greater than the
reported mean (3/4): the claimed `lower ≤ mean ≤ upper` fails. -/
theorem summarize_mean_outside_interval :
    ¬ ((summarize [0, 1, 1, 1] (1 / 2)).lower ≤
         (summarize [0, 1, 1, 1] (1 / 2)).mean ∧
       (summarize [0, 1, 1, 1] (1 / 2)).mean ≤
         (summarize [0, 1, 1, 1] (1 / 2)).upper) := by
  rintro ⟨h1, _⟩
  have hl : (summarize [0, 1, 1, 1] (1 / 2)).lower = 1 := by
    norm_num [summarize, sortQ, List.insertionSort, List.orderedInsert,
      quantileIndex]
  have hm : (summarize [0, 1, 1, 1] (1 / 2)).mean = 3 / 4 := by
    norm_num [summarize, listMean]
  rw [hl, hm] at h1
  norm_num at h1

/-- C6 (amended): for every nonempty posterior sample sequence with values
in [0,1] and every confidence `0 < C < 1`, both credible-interval bounds lie
within [0,1], the lower bound is at most the upper bound, and the posterior
mean lies within [0,1] — but the mean need not lie between the two bounds. -/
theorem summarize_bounds_in_unit_interval (s : List ℚ) (conf : ℚ)
    (hs : s ≠ []) (hall : ∀ x ∈ s, 0 ≤ x ∧ x ≤ 1)
    (h0 : 0 < conf) (h1 : conf < 1) :
    (0 ≤ (summarize s conf).lower ∧ (summarize s conf).lower ≤ 1) ∧
    (0 ≤ (summarize s conf).upper ∧ (summarize s conf).upper ≤ 1) ∧
    (summarize s conf).lower ≤ (summarize s conf).upper ∧
    (0 ≤ (summarize s conf).mean ∧ (summarize s conf).mean ≤ 1) := by
  have hn : 0 < s.length := List.length_pos.mpr hs
  have hlow : (summarize s conf).lower =
      (sortQ s).getD (quantileIndex ((1 - conf) / 2) s.length) 0 := rfl
  have hup : (summarize s conf).upper =
      (sortQ s).getD (quantileIndex (1 - (1 - conf) / 2) s.length) 0 := rfl
  have hlmem : (summarize s conf).lower ∈ s := by
    rw [hlow]; exact sortQ_getD_mem s _ (quantileIndex_lt _ _ hn)
  have humem : (summarize s conf).upper ∈ s := by
    rw [hup]; exact sortQ_getD_mem s _ (quantileIndex_lt _ _ hn)
  refine ⟨⟨(hall _ hlmem).1, (hall _ hlmem).2⟩,
    ⟨(hall _ humem).1, (hall _ humem).2⟩, ?_, ?_, ?_⟩
  · rw [hlow, hup]
    refine sortQ_getD_mono s _ _ ?_ (quantileIndex_lt _ _ hn)
    exact quantileIndex_mono _ _ _ (by linarith)
  · have hmean : (summarize s conf).mean = s.sum / (s.length : ℚ) :=
      listMean_eq_sum_div s
    rw [hmean]
    exact div_nonneg (List.sum_nonneg fun x hx => (hall x hx).1) (by positivity)
  · have hmean : (summarize s conf).mean = s.sum / (s.length : ℚ) :=
      listMean_eq_sum_div s
    rw [hmean]
    rw [div_le_one (by exact_mod_cast hn)]
    exact sum_le_length s fun x hx => (hall x hx).2

/-- C6 (amended) witness: the bounds at `s = [0, 1]`, confidence `1/2`. -/
theorem summarize_bounds_in_unit_interval_witness :
    ([0, 1] : List ℚ) ≠ [] ∧ (∀ x ∈ ([0, 1] : List ℚ), 0 ≤ x ∧ x ≤ 1) ∧
    (0 : ℚ) < 1 / 2 ∧ (1 / 2 : ℚ) < 1 ∧
    ((0 ≤ (summarize [0, 1] (1 / 2)).lower ∧
        (summarize [0, 1] (1 / 2)).lower ≤ 1) ∧
     (0 ≤ (summarize [0, 1] (1 / 2)).upper ∧
        (summarize [0, 1] (1 / 2)).upper ≤ 1) ∧
     (summarize [0, 1] (1 / 2)).lower ≤ (summarize [0, 1] (1 / 2)).upper ∧
     (0 ≤ (summarize [0, 1] (1 / 2)).mean ∧
        (summarize [0, 1] (1 / 2)).mean ≤ 1)) :=
  ⟨by decide, by decide, by norm_num, by norm_num,
    summarize_bounds_in_unit_interval [0, 1] (1 / 2) (by decide) (by decide)
      (by norm_num) (by norm_num)⟩

/-- C4: the number of reported posterior samples is exactly the requested
count `k`, independent of the retained chain length — in particular a chain
of any length yields `refConfig.resample_count = 5000` reported samples while
the reference chain used `warmup_steps = 100` plus `num_samples = 100`
iterations; every reported sample is one of the retained chain states; and
when the requested count exceeds the retained count the with-replacement
policy necessarily repeats an index. -/
theorem get_samples_resampling (chain : List ℚ) (k s : ℕ)
    (hc : chain ≠ []) :
    (getSamples chain k s).1.length = k ∧
    (∀ x ∈ (getSamples chain k s).1, x ∈ chain) ∧
    (chain.length < k → ¬ (resampleIndices chain.length k s).1.Nodup) ∧
    ((getSamples chain refConfig.resample_count.toNat s).1.length = 5000 ∧
      refConfig.warmup_steps = 100 ∧ refConfig.num_samples = 100) := by
  have hn : 0 < chain.length := List.length_pos.mpr hc
  refine ⟨?_, ?_, ?_, ?_, rfl, rfl⟩
  · simp [getSamples, resampleIndices_fst_length]
  · intro x hx
    simp only [getSamples, List.mem_map] at hx
    obtain ⟨i, hi, hxe⟩ := hx
    have hilt : i < chain.length := resampleIndices_lt _ hn _ _ i hi
    rw [← hxe, List.getD_eq_getElem chain 0 hilt]
    exact List.getElem_mem hilt
  · intro hlt hnd
    have := nodup_length_le _ _ (resampleIndices_lt _ hn k s) hnd
    rw [resampleIndices_fst_length] at this
    omega
  · simp [getSamples, resampleIndices_fst_length, refConfig]

/-- C4 witness: resampling `k = 3` draws from the retained chain `[1/2, 1/4]`. -/
theorem get_samples_resampling_witness :
    ([1 / 2, 1 / 4] : List ℚ) ≠ [] ∧
    ((getSamples [1 / 2, 1 / 4] 3 0).1.length = 3 ∧
     (∀ x ∈ (getSamples [1 / 2, 1 / 4] 3 0).1, x ∈ ([1 / 2, 1 / 4] : List ℚ)) ∧
     (([1 / 2, 1 / 4] : List ℚ).length < 3 →
        ¬ (resampleIndices ([1 / 2, 1 / 4] : List ℚ).length 3 0).1.Nodup) ∧
     ((getSamples [1 / 2, 1 / 4] refConfig.resample_count.toNat 0).1.length = 5000 ∧
       refConfig.warmup_steps = 100 ∧ refConfig.num_samples = 100)) :=
  ⟨by decide, get_samples_resampling [1 / 2, 1 / 4] 3 0 (by decide)⟩

/-- C2: on the empty observation sequence the estimator reports the
invalid-input error whose reason is "undefined likelihood with no
observations", and it does so for every sampling stage whatsoever — the
check precedes sampling, so the sampler is never invoked. -/
theorem empty_observations_error
    (sampler : Config → List Bool → ℕ → List ℚ × ℕ) (cfg : Config)
    (seed : ℕ) :
    runWith sampler cfg [] seed = Except.error EstError.noObservations ∧
    errMessage EstError.noObservations =
      "undefined likelihood with no observations" :=
  ⟨by simp [runWith, validate], rfl⟩

/-- C7: a non-positive step size, warm-up count, or sample count is rejected
with its own specific reason, for every sampling stage whatsoever — the
checks precede sampling. -/
theorem invalid_config_error
    (sampler : Config → List Bool → ℕ → List ℚ × ℕ) (cfg : Config)
    (y : List Bool) (seed : ℕ) (hy : y ≠ []) :
    (cfg.step_size ≤ 0 →
      runWith sampler cfg y seed = Except.error EstError.badStepSize) ∧
    (0 < cfg.step_size → cfg.warmup_steps ≤ 0 →
      runWith sampler cfg y seed = Except.error EstError.badWarmup) ∧
    (0 < cfg.step_size → 0 < cfg.warmup_steps → cfg.num_samples ≤ 0 →
      runWith sampler cfg y seed = Except.error EstError.badNumSamples) ∧
    errMessage EstError.badStepSize = "step size must be positive" ∧
    errMessage EstError.badWarmup = "warm-up count must be positive" ∧
    errMessage EstError.badNumSamples = "sample count must be positive" := by
  have hlen : y.length ≠ 0 := by simpa using hy
  refine ⟨?_, ?_, ?_, rfl, rfl, rfl⟩
  · intro h
    simp [runWith, validate, hlen, h]
  · intro h1 h2
    simp [runWith, validate, hlen, not_le.mpr h1, h2]
  · intro h1 h2 h3
    simp [runWith, validate, hlen, not_le.mpr h1, not_le.mpr h2, h3]

/-- C7 witness: a configuration with step size −1 is rejected with the
step-size reason on the observation vector `[true]`. -/
theorem invalid_config_error_witness :
    ([true] : List Bool) ≠ [] ∧
    ((Config.mk (-1) 100 100 5000 (95 / 100)).step_size ≤ 0 →
      runWith hmcSampler (Config.mk (-1) 100 100 5000 (95 / 100)) [true] 0 =
        Except.error EstError.badStepSize) ∧
    (0 < (Config.mk (-1) 100 100 5000 (95 / 100)).step_size →
      (Config.mk (-1) 100 100 5000 (95 / 100)).warmup_steps ≤ 0 →
      runWith hmcSampler (Config.mk (-1) 100 100 5000 (95 / 100)) [true] 0 =
        Except.error EstError.badWarmup) ∧
    (0 < (Config.mk (-1) 100 100 5000 (95 / 100)).step_size →
      0 < (Config.mk (-1) 100 100 5000 (95 / 100)).warmup_steps →
      (Config.mk (-1) 100 100 5000 (95 / 100)).num_samples ≤ 0 →
      runWith hmcSampler (Config.mk (-1) 100 100 5000 (95 / 100)) [true] 0 =
        Except.error EstError.badNumSamples) ∧
    errMessage EstError.badStepSize = "step size must be positive" ∧
    errMessage EstError.badWarmup = "warm-up count must be positive" ∧
    errMessage EstError.badNumSamples = "sample count must be positive" :=
  ⟨by decide,
    (invalid_config_error hmcSampler (Config.mk (-1) 100 100 5000 (95 / 100))
      [true] 0 (by decide)).1,
    (invalid_config_error hmcSampler (Config.mk (-1) 100 100 5000 (95 / 100))
      [true] 0 (by decide)).2.1,
    (invalid_config_error hmcSampler (Config.mk (-1) 100 100 5000 (95 / 100))
      [true] 0 (by decide)).2.2.1,
    rfl, rfl, rfl⟩

/-- C5: under a fixed seed and configuration, two independent runs — each
reseeding the stream and clearing the parameter store, whatever process
state they start from — return identical outputs (in particular identical
posterior sample sequences) on the same observation sequence. -/
theorem independent_runs_identical (seed : ℕ) (cfg : Config)
    (y : List Bool) (st1 st2 : GlobalState) :
    (independentRun seed cfg y st1).1 = (independentRun seed cfg y st2).1 :=
  rfl

/-- C8 counterexample: the claim that no state other than the parameter
store is modified is false — an inference run writes the caller-visible
global random stream: on a concrete run the rng field of the process state,
which is not the parameter store, comes back changed. -/
theorem run_modifies_rng_stream :
    (mcmcRunState smallConfig (GlobalState.mk 102563 [] [true] [])).2.rng ≠
      (GlobalState.mk 102563 [] [true] []).rng := by
  decide

/-- C8 (amended): an inference run modifies nothing a caller can see beyond
its returned data except the parameter store and the global random stream it
advances: the final state is the initial one with only the rng and
parameter-store fields replaced, so the observation vector and all other
caller-visible state come back unchanged; and the incoming parameter store
is cleared before sampling — the entire run is invariant under it. -/
theorem run_frame_effects (cfg : Config) (st : GlobalState)
    (ps : List (String × ℚ)) :
    (mcmcRunState cfg st).2.data = st.data ∧
    (mcmcRunState cfg st).2.extra = st.extra ∧
    (mcmcRunState cfg st).2 =
      { st with rng := (mcmcRunState cfg st).2.rng,
                param_store := (mcmcRunState cfg st).2.param_store } ∧
    mcmcRunState cfg { st with param_store := ps } = mcmcRunState cfg st :=
  ⟨rfl, rfl, rfl, rfl⟩

/-- C10: the notebook sets the global seed 102563 exactly once, in
the imports cell, before data loading and before inference; a second inference
run in the same process starts from the stream state the first run advanced
to — concretely, its output differs from what a freshly reseeded run at that
point returns — while a run occupying the same position (a fresh process
seeded identically) reproduces the first run exactly. -/
theorem seed_set_once_globally :
    notebookScript.take 2 =
      [NotebookStep.importLibs, NotebookStep.set_rng_seed 102563] ∧
    notebookScript.countP isSeedStep = 1 ∧
    NotebookStep.loadData ∈ notebookScript.drop 2 ∧
    NotebookStep.clearStoreAndRunMcmc ∈ notebookScript.drop 2 ∧
    secondRun smallConfig [true] =
      mcmcRunState smallConfig (firstRun smallConfig [true]).2 ∧
    (firstRun smallConfig [true]).2.rng ≠ 102563 ∧
    (secondRun smallConfig [true]).1.samples ≠
      (independentRun 102563 smallConfig [true]
        (firstRun smallConfig [true]).2).1.samples ∧
    (independentRun 102563 smallConfig [true]
      (GlobalState.mk 0 [] [] [])).1 = (firstRun smallConfig [true]).1 := by
  refine ⟨by decide, by decide, by decide, by decide, rfl, by decide, ?_, rfl⟩
  have h1 : (secondRun smallConfig [true]).1.samples = [1] := by
    norm_num [secondRun, firstRun, mcmcRunState, hmcSampler, mcmcSampler,
      runChain, chainStep, clamp01, initP, getSamples, resampleIndices,
      rngVal, rngNext, smallConfig]
  have h2 : (independentRun 102563 smallConfig [true]
      (firstRun smallConfig [true]).2).1.samples = [473 / 500] := by
    norm_num [independentRun, firstRun, mcmcRunState, hmcSampler, mcmcSampler,
      runChain, chainStep, clamp01, initP, getSamples, resampleIndices,
      rngVal, rngNext, smallConfig]
  rw [h1, h2]
  norm_num

end ModelEval
